import Mathlib

/-!
Verification of the peak-finder search controller
(`src/peak_finder/src/peak_finder_component.cpp`).

The controller's `execute` method is embedded as a trace-producing function.
External collaborators (the elevation service, the TF position lookup and the
navigator) are modelled as per-iteration environments; the busy-wait polling
loops (`result_future.wait_for(100ms)` and `navigator_.wait_for_completion`)
are modelled tick by tick with explicit fuel, so that unbounded waiting is
observable.  Positions are ideal real pairs, elevations are rationals
(the control flow of the source only ever compares elevations).

Every observable action of the controller is recorded as an `Event`:
elevation-sample requests, navigation requests, navigation cancellation and
reports of a terminal outcome to the goal handle.
-/

namespace PeakFinder

/-- Terminal outcome of a goal: `goal_handle->succeed / abort / canceled`. -/
inductive Outcome
  | succeeded
  | aborted
  | canceled
deriving DecidableEq, Repr

/-- A 2-D position (the `Eigen::Vector2d` values of the source). -/
abbrev Pos : Type := ℝ × ℝ

/-- Observable actions of the controller. -/
inductive Event
  | elevRequest (pos : Pos)
  | navRequest (pos : Pos)
  | navCancel
  | report (o : Outcome)

/-- Outcomes reported in a trace, in order. -/
def reportsOf (evs : List Event) : List Outcome :=
  evs.filterMap fun e =>
    match e with
    | Event.report o => some o
    | _ => none

/-- Positions of the elevation-sample requests in a trace, in order. -/
def elevRequestsOf (evs : List Event) : List Pos :=
  evs.filterMap fun e =>
    match e with
    | Event.elevRequest p => some p
    | _ => none

/-- Whether an event is a navigation request (`navigator_.go_to_pose`). -/
def Event.isNavRequest : Event → Bool
  | Event.navRequest _ => true
  | _ => false

/-- One observation of `rclcpp::ok()` and `goal_handle->is_canceling()`. -/
structure Check where
  ok : Bool
  canceling : Bool
deriving DecidableEq, Repr

/-- The stop condition `!rclcpp::ok() || goal_handle->is_canceling()`. -/
def Check.stop (c : Check) : Bool := !c.ok || c.canceling

/-- Environment of one `SampleElevation` call: whether the future is ready at
each 100ms tick, the ok/canceling observation at each tick, and the response
(`success` flag and `elevation` value) obtained once the future is ready. -/
structure SampleEnv where
  readyAt : ℕ → Bool
  stopAt : ℕ → Check
  success : Bool
  elevation : ℚ

/-- Environment of one navigation phase: whether `go_to_pose` was accepted,
whether `wait_for_completion` reports done at each 100ms tick, the
ok/canceling observation at each tick, and `navigator_.succeeded()`. -/
structure NavEnv where
  accepted : Bool
  doneAt : ℕ → Bool
  stopAt : ℕ → Check
  navSucceeded : Bool

/-- Environment of one loop iteration: the loop-top check, the result of
`GetRobotPosition` (`none` models a thrown TF exception), the environments of
the (up to nine) elevation-sample calls of the iteration, and the navigation
environment. -/
structure IterEnv where
  top : Check
  pose : Option Pos
  sample : ℕ → SampleEnv
  nav : NavEnv

/-- The precondition flags checked before the loop: elevation service ready,
TF transform available, navigation action server available. -/
structure StartEnv where
  elevReady : Bool
  canTransform : Bool
  navAvailable : Bool
deriving DecidableEq, Repr

/-- The `look_distance` constant of the source: the fixed ring radius 0.1. -/
noncomputable def lookDistance : ℝ := 0.1

/-- One call of the `generate_next_pose` lambda: produce
`look_distance * (cos angle, sin angle) + robot_position` and advance the
captured `angle` by `M_PI_4`. -/
noncomputable def nextPose (p : Pos) (angle : ℝ) : Pos × ℝ :=
  ((lookDistance * Real.cos angle + p.1, lookDistance * Real.sin angle + p.2),
   angle + Real.pi / 4)

/-- The `std::generate_n` call over `generate_next_pose`: `n` calls starting
with the captured angle `a`. -/
noncomputable def genPoses (p : Pos) : ℕ → ℝ → List Pos
  | 0, _ => []
  | n + 1, a => (nextPose p a).1 :: genPoses p n (nextPose p a).2

/-- The `sample_positions` vector: 8 ring positions starting at angle 0. -/
noncomputable def samplePositions (p : Pos) : List Pos :=
  genPoses p 8 0

/-- Result of one `SampleElevation` call: an elevation value (returned
`true`), a terminal outcome reported inside the call (returned `false`), or
an unbounded wait (`hang`, reachable only when the tick fuel runs out). -/
inductive SampleRes
  | value (e : ℚ)
  | stopped (o : Outcome)
  | hang
deriving DecidableEq, Repr

/-- Result of sampling the ring positions in order. -/
inductive RingRes
  | elevations (es : List ℚ)
  | stopped (o : Outcome)
  | hang
deriving DecidableEq, Repr

/-- Result of one loop iteration: continue looping, stop with a terminal
outcome already reported, or an unbounded wait. -/
inductive IterRes
  | cont
  | stopped (o : Outcome)
  | hang
deriving DecidableEq, Repr

/-- The wait loop of `SampleElevation`:
`while (result_future.wait_for(100ms) != ready) { if stop { ... } }`.
`some true`: the future became ready; `some false`: the stop condition was
observed first; `none`: the fuel ran out with neither (the loop would spin
forever in the source if neither ever occurs). -/
def sampleWait (se : SampleEnv) : ℕ → ℕ → Option Bool
  | 0, _ => none
  | f + 1, t =>
    if se.readyAt t then some true
    else if (se.stopAt t).stop then some false
    else sampleWait se f (t + 1)

/-- The `SampleElevation` member function: send one request (recorded as an
`elevRequest` event), wait for the response, and either return the elevation,
or report `canceled` (stop observed during the wait) or `aborted` (response
with `success == false`) on the goal handle. -/
def SampleElevation (pos : Pos) (se : SampleEnv) (tickFuel : ℕ) :
    List Event × SampleRes :=
  match sampleWait se tickFuel 0 with
  | none => ([Event.elevRequest pos], SampleRes.hang)
  | some false =>
    ([Event.elevRequest pos, Event.report Outcome.canceled],
     SampleRes.stopped Outcome.canceled)
  | some true =>
    if se.success then ([Event.elevRequest pos], SampleRes.value se.elevation)
    else
      ([Event.elevRequest pos, Event.report Outcome.aborted],
       SampleRes.stopped Outcome.aborted)

/-- The ring-sampling `for` loop: sample each position in order, collecting
elevations, stopping at the first call that does not return a value.  The
`j`-th position uses the sample environment `ses j`. -/
def sampleRing (ses : ℕ → SampleEnv) (tickFuel : ℕ) :
    List Pos → ℕ → List Event × RingRes
  | [], _ => ([], RingRes.elevations [])
  | p :: ps, j =>
    match SampleElevation p (ses j) tickFuel with
    | (evs, SampleRes.value e) =>
      match sampleRing ses tickFuel ps (j + 1) with
      | (evs2, RingRes.elevations es) => (evs ++ evs2, RingRes.elevations (e :: es))
      | (evs2, RingRes.stopped o) => (evs ++ evs2, RingRes.stopped o)
      | (evs2, RingRes.hang) => (evs ++ evs2, RingRes.hang)
    | (evs, SampleRes.stopped o) => (evs, RingRes.stopped o)
    | (evs, SampleRes.hang) => (evs, RingRes.hang)

/-- The scanning step of `std::max_element`: keep the current best index and
value, replacing it only when a strictly greater value is seen (ties keep the
earlier index). -/
def maxElementAux : ℕ → ℚ → ℕ → List ℚ → ℕ × ℚ
  | bi, bv, _, [] => (bi, bv)
  | bi, bv, i, y :: ys =>
    if bv < y then maxElementAux i y (i + 1) ys
    else maxElementAux bi bv (i + 1) ys

/-- The `std::max_element` scan over the elevation vector, as the pair of the index of
the first greatest element and its value (`none` on an empty vector, where the
source would dereference `end()`). -/
def maxElement : List ℚ → Option (ℕ × ℚ)
  | [] => none
  | x :: xs => some (maxElementAux 0 x 1 xs)

/-- The navigation poll loop:
`while (!navigator_.wait_for_completion(100ms)) { if stop { ... } }`.
`some true`: navigation completed; `some false`: the stop condition was
observed first; `none`: fuel ran out. -/
def navWait (ne : NavEnv) : ℕ → ℕ → Option Bool
  | 0, _ => none
  | f + 1, t =>
    if ne.doneAt t then some true
    else if (ne.stopAt t).stop then some false
    else navWait ne f (t + 1)

/-- One iteration of the `while` body of `execute`: get the robot position
(a TF exception propagates to the `catch`, which aborts), sample the current
elevation, build and sample the 8 ring positions, take the arg-max, and then
either succeed (max ≤ current) or navigate to the best ring position. -/
noncomputable def iteration (ie : IterEnv) (tickFuel : ℕ) : List Event × IterRes :=
  match ie.pose with
  | none => ([Event.report Outcome.aborted], IterRes.stopped Outcome.aborted)
  | some p =>
    match SampleElevation p (ie.sample 0) tickFuel with
    | (evs0, SampleRes.stopped o) => (evs0, IterRes.stopped o)
    | (evs0, SampleRes.hang) => (evs0, IterRes.hang)
    | (evs0, SampleRes.value c) =>
      match sampleRing (fun j => ie.sample (j + 1)) tickFuel (samplePositions p) 0 with
      | (evs1, RingRes.stopped o) => (evs0 ++ evs1, IterRes.stopped o)
      | (evs1, RingRes.hang) => (evs0 ++ evs1, IterRes.hang)
      | (evs1, RingRes.elevations es) =>
        match maxElement es with
        | none => (evs0 ++ evs1, IterRes.hang)
        | some (idx, m) =>
          if m ≤ c then
            (evs0 ++ evs1 ++ [Event.report Outcome.succeeded],
             IterRes.stopped Outcome.succeeded)
          else
            if ie.nav.accepted = false then
              (evs0 ++ evs1 ++
                 [Event.navRequest ((samplePositions p).getD idx p),
                  Event.report Outcome.aborted],
               IterRes.stopped Outcome.aborted)
            else
              match navWait ie.nav tickFuel 0 with
              | none =>
                (evs0 ++ evs1 ++ [Event.navRequest ((samplePositions p).getD idx p)],
                 IterRes.hang)
              | some false =>
                (evs0 ++ evs1 ++
                   [Event.navRequest ((samplePositions p).getD idx p),
                    Event.navCancel, Event.report Outcome.canceled],
                 IterRes.stopped Outcome.canceled)
              | some true =>
                if ie.nav.navSucceeded then
                  (evs0 ++ evs1 ++ [Event.navRequest ((samplePositions p).getD idx p)],
                   IterRes.cont)
                else
                  (evs0 ++ evs1 ++
                     [Event.navRequest ((samplePositions p).getD idx p),
                      Event.report Outcome.aborted],
                   IterRes.stopped Outcome.aborted)

/-- The `while (rclcpp::ok() && !goal_handle->is_canceling())` loop of
`execute`.  When the loop condition fails at the top, the source falls
through to `goal_handle->canceled(...)`.  The second result component is the
terminal outcome, `none` when the fuel ran out (still executing). -/
noncomputable def loopRun (env : ℕ → IterEnv) (tickFuel : ℕ) :
    ℕ → ℕ → List Event × Option Outcome
  | 0, _ => ([], none)
  | f + 1, i =>
    if (Check.stop (env i).top) then
      ([Event.report Outcome.canceled], some Outcome.canceled)
    else
      match iteration (env i) tickFuel with
      | (evs, IterRes.stopped o) => (evs, some o)
      | (evs, IterRes.hang) => (evs, none)
      | (evs, IterRes.cont) =>
        match loopRun env tickFuel f (i + 1) with
        | (evs2, r) => (evs ++ evs2, r)

/-- The `execute` method: the three fast-fail precondition checks (elevation
service ready, TF transform available, navigation server available), then the
search loop. -/
noncomputable def execute (s : StartEnv) (env : ℕ → IterEnv)
    (tickFuel iterFuel : ℕ) : List Event × Option Outcome :=
  if s.elevReady = false then
    ([Event.report Outcome.aborted], some Outcome.aborted)
  else if s.canTransform = false then
    ([Event.report Outcome.aborted], some Outcome.aborted)
  else if s.navAvailable = false then
    ([Event.report Outcome.aborted], some Outcome.aborted)
  else loopRun env tickFuel iterFuel 0

/-- The navigation tail of an iteration, as the events and result appended
after the `navRequest` event: rejection aborts, a stop observation during the
poll loop cancels the navigator and reports `canceled`, completion either
continues the loop or aborts.  (Pure restatement of the tail of `iteration`,
used to phrase unfolding lemmas.) -/
def navRest (ne : NavEnv) (tf : ℕ) : List Event × IterRes :=
  if ne.accepted = false then
    ([Event.report Outcome.aborted], IterRes.stopped Outcome.aborted)
  else
    match navWait ne tf 0 with
    | none => ([], IterRes.hang)
    | some false =>
      ([Event.navCancel, Event.report Outcome.canceled],
       IterRes.stopped Outcome.canceled)
    | some true =>
      if ne.navSucceeded then ([], IterRes.cont)
      else ([Event.report Outcome.aborted], IterRes.stopped Outcome.aborted)

/-! ### Concrete test environments (used to witness the theorems below) -/

/-- A sample call whose response is immediately ready and successful. -/
def happySample (e : ℚ) : SampleEnv :=
  { readyAt := fun _ => true, stopAt := fun _ => ⟨true, false⟩,
    success := true, elevation := e }

/-- A sample call whose response is ready but reports `success = false`. -/
def serverFailSample : SampleEnv :=
  { readyAt := fun _ => true, stopAt := fun _ => ⟨true, false⟩,
    success := false, elevation := 0 }

/-- A sample call whose response never arrives while the caller cancels. -/
def cancelWaitSample : SampleEnv :=
  { readyAt := fun _ => false, stopAt := fun _ => ⟨true, true⟩,
    success := true, elevation := 0 }

/-- A sample call whose response never arrives and nobody ever cancels. -/
def silentSample : SampleEnv :=
  { readyAt := fun _ => false, stopAt := fun _ => ⟨true, false⟩,
    success := true, elevation := 0 }

/-- A navigation phase that accepts, completes immediately and succeeds. -/
def happyNav : NavEnv :=
  { accepted := true, doneAt := fun _ => true,
    stopAt := fun _ => ⟨true, false⟩, navSucceeded := true }

/-- A navigation phase that accepts, never completes, with cancellation
observed at every poll tick. -/
def cancelPollNav : NavEnv :=
  { accepted := true, doneAt := fun _ => false,
    stopAt := fun _ => ⟨true, true⟩, navSucceeded := true }

/-- Iteration at a local maximum: current elevation 5, all ring samples 4. -/
noncomputable def wEnvA : IterEnv :=
  { top := ⟨true, false⟩,
    pose := some ((0 : ℝ), (0 : ℝ)),
    sample := fun j => happySample (if j = 0 then 5 else 4),
    nav := happyNav }

/-- Iteration with a strict ring maximum at angular index 2:
current elevation 5, ring elevations `[3, 4, 7, 1, 0, 1, 2, 3]`. -/
noncomputable def wEnvB : IterEnv :=
  { top := ⟨true, false⟩,
    pose := some ((0 : ℝ), (0 : ℝ)),
    sample := fun j => happySample ([5, 3, 4, 7, 1, 0, 1, 2, 3].getD j 0),
    nav := happyNav }

/-- Iteration whose navigation poll observes cancellation: current elevation
5, all ring samples 6, navigation accepted but never completing while the
goal is being canceled. -/
noncomputable def wEnvC : IterEnv :=
  { top := ⟨true, false⟩,
    pose := some ((0 : ℝ), (0 : ℝ)),
    sample := fun j => happySample (if j = 0 then 5 else 6),
    nav := cancelPollNav }

/-- Iteration whose third elevation-sample call (second ring sample) gets a
`success = false` response. -/
noncomputable def wEnvD : IterEnv :=
  { top := ⟨true, false⟩,
    pose := some ((0 : ℝ), (0 : ℝ)),
    sample := fun j => if j = 2 then serverFailSample else happySample 4,
    nav := happyNav }

/-- Iteration whose third elevation-sample call observes cancellation while
waiting for its response. -/
noncomputable def wEnvE : IterEnv :=
  { top := ⟨true, false⟩,
    pose := some ((0 : ℝ), (0 : ℝ)),
    sample := fun j => if j = 2 then cancelWaitSample else happySample 4,
    nav := happyNav }

/-- Loop-top observation with the process shut down (`rclcpp::ok()` false)
but the caller NOT cancelling. -/
noncomputable def wEnvF : IterEnv :=
  { top := ⟨false, false⟩,
    pose := some ((0 : ℝ), (0 : ℝ)),
    sample := fun _ => happySample 0,
    nav := happyNav }

/-- Loop-top observation with the caller cancelling. -/
noncomputable def wEnvG : IterEnv :=
  { top := ⟨true, true⟩,
    pose := some ((0 : ℝ), (0 : ℝ)),
    sample := fun _ => happySample 0,
    nav := happyNav }

/-- All three start-up preconditions hold. -/
def sAllOk : StartEnv := ⟨true, true, true⟩

/-- The elevation service is not ready at goal start. -/
def sNoElev : StartEnv := ⟨false, true, true⟩

/-! ### Ring geometry -/

lemma genPoses_length (p : Pos) : ∀ (n : ℕ) (a : ℝ), (genPoses p n a).length = n
  | 0, _ => rfl
  | n + 1, a => by simp [genPoses, genPoses_length p n]

lemma samplePositions_length (p : Pos) : (samplePositions p).length = 8 :=
  genPoses_length p 8 0

lemma genPoses_getD (p d : Pos) :
    ∀ (n k : ℕ) (a : ℝ), k < n →
      (genPoses p n a).getD k d =
        (lookDistance * Real.cos (a + k * (Real.pi / 4)) + p.1,
         lookDistance * Real.sin (a + k * (Real.pi / 4)) + p.2)
  | 0, k, _, h => absurd h (Nat.not_lt_zero k)
  | n + 1, 0, a, _ => by
    simp [genPoses, nextPose]
  | n + 1, k + 1, a, h => by
    have ih := genPoses_getD p d n k (a + Real.pi / 4) (by omega)
    have harith : a + Real.pi / 4 + (k : ℝ) * (Real.pi / 4) =
        a + ((k : ℕ) + 1 : ℕ) * (Real.pi / 4) := by
      push_cast
      ring
    simp only [genPoses, nextPose, List.getD_cons_succ]
    rw [ih, harith]

lemma samplePositions_getD (p d : Pos) (k : ℕ) (h : k < 8) :
    (samplePositions p).getD k d =
      (lookDistance * Real.cos (k * (Real.pi / 4)) + p.1,
       lookDistance * Real.sin (k * (Real.pi / 4)) + p.2) := by
  have := genPoses_getD p d 8 k 0 h
  simpa [samplePositions] using this

lemma samplePositions_radius (p d : Pos) (k : ℕ) (h : k < 8) :
    Real.sqrt ((((samplePositions p).getD k d).1 - p.1) ^ 2 +
               (((samplePositions p).getD k d).2 - p.2) ^ 2) = lookDistance := by
  rw [samplePositions_getD p d k h]
  have h2 := Real.sin_sq_add_cos_sq ((k : ℝ) * (Real.pi / 4))
  have h1 : (lookDistance * Real.cos ((k : ℝ) * (Real.pi / 4)) + p.1 - p.1) ^ 2 +
      (lookDistance * Real.sin ((k : ℝ) * (Real.pi / 4)) + p.2 - p.2) ^ 2 =
      lookDistance ^ 2 := by
    linear_combination (lookDistance ^ 2) * h2
  rw [h1, Real.sqrt_sq (by norm_num [lookDistance])]

/-! ### `std::max_element` semantics -/

lemma maxElementAux_mem : ∀ (l : List ℚ) (bi : ℕ) (bv : ℚ) (i : ℕ),
    (maxElementAux bi bv i l).2 = bv ∨ (maxElementAux bi bv i l).2 ∈ l
  | [], _, _, _ => Or.inl rfl
  | y :: ys, bi, bv, i => by
    simp only [maxElementAux]
    by_cases h : bv < y
    · rw [if_pos h]
      rcases maxElementAux_mem ys i y (i + 1) with h2 | h2
      · exact Or.inr (by simp [h2])
      · exact Or.inr (by simp [h2])
    · rw [if_neg h]
      rcases maxElementAux_mem ys bi bv (i + 1) with h2 | h2
      · exact Or.inl h2
      · exact Or.inr (by simp [h2])

lemma maxElement_mem {l : List ℚ} {i : ℕ} {m : ℚ}
    (h : maxElement l = some (i, m)) : m ∈ l := by
  match l with
  | [] => exact absurd h (by simp [maxElement])
  | x :: xs =>
    simp only [maxElement, Option.some_inj] at h
    have hm : (maxElementAux 0 x 1 xs).2 = m := by rw [h]
    rcases maxElementAux_mem xs 0 x 1 with h2 | h2
    · rw [hm] at h2
      simp [h2]
    · rw [hm] at h2
      simp [h2]

lemma maxElementAux_of_best : ∀ (l : List ℚ) (bi : ℕ) (bv : ℚ) (i : ℕ),
    (∀ x ∈ l, x ≤ bv) → maxElementAux bi bv i l = (bi, bv)
  | [], _, _, _, _ => rfl
  | y :: ys, bi, bv, i, h => by
    have hy : ¬ bv < y := not_lt.mpr (h y (by simp))
    simp only [maxElementAux, if_neg hy]
    exact maxElementAux_of_best ys bi bv (i + 1) fun x hx => h x (by simp [hx])

lemma maxElementAux_finds : ∀ (l : List ℚ) (bi : ℕ) (bv : ℚ) (k n : ℕ) (m : ℚ),
    n < l.length → l.getD n 0 = m → bv < m →
    (∀ j, j < n → l.getD j 0 < m) →
    (∀ j, j < l.length → l.getD j 0 ≤ m) →
    maxElementAux bi bv k l = (k + n, m)
  | [], _, _, _, n, _, hn, _, _, _, _ => absurd hn (by simp)
  | y :: ys, bi, bv, k, 0, m, _, hget, hlt, _, hle => by
    have hy : y = m := by simpa using hget
    subst hy
    simp only [maxElementAux, if_pos hlt]
    have : maxElementAux k y (k + 1) ys = (k, y) := by
      apply maxElementAux_of_best
      intro x hx
      rcases List.mem_iff_getElem.mp hx with ⟨j, hj, rfl⟩
      have h3 := hle (j + 1) (by simpa using Nat.succ_lt_succ hj)
      rw [List.getD_cons_succ, List.getD_eq_getElem ys 0 hj] at h3
      simpa using h3
    simpa using this
  | y :: ys, bi, bv, k, n + 1, m, hn, hget, hlt, hstrict, hle => by
    have hylt : y < m := by
      have := hstrict 0 (Nat.succ_pos n)
      simpa using this
    have hrec : ∀ (bi' : ℕ) (bv' : ℚ), bv' < m →
        maxElementAux bi' bv' (k + 1) ys = (k + 1 + n, m) := by
      intro bi' bv' hbv'
      apply maxElementAux_finds ys bi' bv' (k + 1) n m
      · simpa using Nat.lt_of_succ_lt_succ hn
      · simpa [List.getD_cons_succ] using hget
      · exact hbv'
      · intro j hj
        have := hstrict (j + 1) (Nat.succ_lt_succ hj)
        simpa [List.getD_cons_succ] using this
      · intro j hj
        have := hle (j + 1) (by simpa using Nat.succ_lt_succ hj)
        simpa [List.getD_cons_succ] using this
    have harith : k + 1 + n = k + (n + 1) := by omega
    by_cases h : bv < y
    · simp only [maxElementAux, if_pos h]
      rw [hrec k y hylt, harith]
    · simp only [maxElementAux, if_neg h]
      rw [hrec bi bv hlt, harith]

lemma maxElement_least {l : List ℚ} {i : ℕ}
    (hi : i < l.length)
    (hle : ∀ j, j < l.length → l.getD j 0 ≤ l.getD i 0)
    (hstrict : ∀ j, j < i → l.getD j 0 < l.getD i 0) :
    maxElement l = some (i, l.getD i 0) := by
  match l with
  | [] => exact absurd hi (by simp)
  | x :: xs =>
    match i with
    | 0 =>
      have hx : (x :: xs).getD 0 0 = x := rfl
      have : maxElementAux 0 x 1 xs = (0, x) := by
        apply maxElementAux_of_best
        intro z hz
        rcases List.mem_iff_getElem.mp hz with ⟨j, hj, rfl⟩
        have h3 := hle (j + 1) (by simpa using Nat.succ_lt_succ hj)
        rw [List.getD_cons_succ, List.getD_eq_getElem xs 0 hj, hx] at h3
        exact h3
      simp [maxElement, this, hx]
    | i + 1 =>
      have hxlt : x < (x :: xs).getD (i + 1) 0 := by
        have := hstrict 0 (Nat.succ_pos i)
        simpa using this
      have : maxElementAux 0 x 1 xs = (1 + i, (x :: xs).getD (i + 1) 0) := by
        apply maxElementAux_finds xs 0 x 1 i ((x :: xs).getD (i + 1) 0)
        · simpa using Nat.lt_of_succ_lt_succ hi
        · simp [List.getD_cons_succ]
        · exact hxlt
        · intro j hj
          have := hstrict (j + 1) (Nat.succ_lt_succ hj)
          simpa [List.getD_cons_succ] using this
        · intro j hj
          have := hle (j + 1) (by simpa using Nat.succ_lt_succ hj)
          simpa [List.getD_cons_succ] using this
      have harith : 1 + i = i + 1 := by omega
      simp [maxElement, this, harith]

lemma maxElement_isSome {l : List ℚ} (h : l ≠ []) :
    ∃ im, maxElement l = some im := by
  match l with
  | [] => exact absurd rfl h
  | x :: xs => exact ⟨maxElementAux 0 x 1 xs, rfl⟩

/-! ### The `SampleElevation` call -/

lemma sampleWait_stop_observed (se : SampleEnv) :
    ∀ (f t : ℕ), sampleWait se f t = some false →
      ∃ u, Check.stop (se.stopAt u) = true
  | 0, t, h => by simp [sampleWait] at h
  | f + 1, t, h => by
    rw [sampleWait] at h
    by_cases hr : se.readyAt t = true
    · simp [hr] at h
    · simp only [hr, Bool.false_eq_true, if_false] at h
      by_cases hs : Check.stop (se.stopAt t) = true
      · exact ⟨t, hs⟩
      · simp only [hs, Bool.false_eq_true, if_false] at h
        exact sampleWait_stop_observed se f (t + 1) h

lemma navWait_stop_observed (ne : NavEnv) :
    ∀ (f t : ℕ), navWait ne f t = some false →
      ∃ u, Check.stop (ne.stopAt u) = true
  | 0, t, h => by simp [navWait] at h
  | f + 1, t, h => by
    rw [navWait] at h
    by_cases hr : ne.doneAt t = true
    · simp [hr] at h
    · simp only [hr, Bool.false_eq_true, if_false] at h
      by_cases hs : Check.stop (ne.stopAt t) = true
      · exact ⟨t, hs⟩
      · simp only [hs, Bool.false_eq_true, if_false] at h
        exact navWait_stop_observed ne f (t + 1) h

/-- The four possible results of one `SampleElevation` call. -/
lemma SampleElevation_cases (pos : Pos) (se : SampleEnv) (tf : ℕ) :
    SampleElevation pos se tf = ([Event.elevRequest pos], SampleRes.hang) ∨
    SampleElevation pos se tf =
      ([Event.elevRequest pos], SampleRes.value se.elevation) ∨
    SampleElevation pos se tf =
      ([Event.elevRequest pos, Event.report Outcome.canceled],
       SampleRes.stopped Outcome.canceled) ∨
    SampleElevation pos se tf =
      ([Event.elevRequest pos, Event.report Outcome.aborted],
       SampleRes.stopped Outcome.aborted) := by
  rcases hw : sampleWait se tf 0 with _ | b
  · exact Or.inl (by simp [SampleElevation, hw])
  · cases b
    · exact Or.inr (Or.inr (Or.inl (by simp [SampleElevation, hw])))
    · by_cases hs : se.success = true
      · exact Or.inr (Or.inl (by simp [SampleElevation, hw, hs]))
      · exact Or.inr (Or.inr (Or.inr (by simp [SampleElevation, hw, hs])))

lemma SampleElevation_eq_value {pos : Pos} {se : SampleEnv} {tf : ℕ} {e : ℚ}
    (h : (SampleElevation pos se tf).2 = SampleRes.value e) :
    SampleElevation pos se tf = ([Event.elevRequest pos], SampleRes.value e) := by
  rcases SampleElevation_cases pos se tf with hc | hc | hc | hc
  · rw [hc] at h
    simp at h
  · rw [hc] at h
    simp only [SampleRes.value.injEq] at h
    rw [hc, h]
  · rw [hc] at h
    simp at h
  · rw [hc] at h
    simp at h

lemma SampleElevation_eq_stopped {pos : Pos} {se : SampleEnv} {tf : ℕ} {o : Outcome}
    (h : (SampleElevation pos se tf).2 = SampleRes.stopped o) :
    SampleElevation pos se tf =
      ([Event.elevRequest pos, Event.report o], SampleRes.stopped o) := by
  rcases SampleElevation_cases pos se tf with hc | hc | hc | hc
  · rw [hc] at h
    simp at h
  · rw [hc] at h
    simp at h
  · rw [hc] at h
    simp only [SampleRes.stopped.injEq] at h
    rw [hc, ← h]
  · rw [hc] at h
    simp only [SampleRes.stopped.injEq] at h
    rw [hc, ← h]

lemma SampleElevation_canceled_wait {pos : Pos} {se : SampleEnv} {tf : ℕ}
    (h : (SampleElevation pos se tf).2 = SampleRes.stopped Outcome.canceled) :
    sampleWait se tf 0 = some false := by
  rcases hw : sampleWait se tf 0 with _ | b
  · rw [SampleElevation, hw] at h
    simp at h
  · cases b
    · rfl
    · by_cases hs : se.success = true <;> rw [SampleElevation, hw] at h <;>
        simp [hs] at h

/-! ### The ring-sampling loop -/

lemma sampleRing_elevations :
    ∀ (l : List Pos) (ses : ℕ → SampleEnv) (tf j : ℕ) (es : List ℚ),
      (sampleRing ses tf l j).2 = RingRes.elevations es →
      sampleRing ses tf l j = (l.map Event.elevRequest, RingRes.elevations es) ∧
        es.length = l.length
  | [], ses, tf, j, es, h => by
    simp only [sampleRing, RingRes.elevations.injEq] at h
    simp [sampleRing, ← h]
  | p :: ps, ses, tf, j, es, h => by
    rcases SampleElevation_cases p (ses j) tf with hc | hc | hc | hc
    · rw [sampleRing, hc] at h
      simp at h
    · rcases hr : sampleRing ses tf ps (j + 1) with ⟨evs2, r2⟩
      cases r2 with
      | elevations es2 =>
        have h2 : (sampleRing ses tf ps (j + 1)).2 = RingRes.elevations es2 := by
          rw [hr]
        rcases sampleRing_elevations ps ses tf (j + 1) es2 h2 with ⟨hfull, hlen⟩
        rw [hr] at hfull
        have hevs2 : evs2 = ps.map Event.elevRequest := by
          have := congrArg Prod.fst hfull
          simpa using this
        rw [sampleRing, hc, hr] at h ⊢
        simp only [RingRes.elevations.injEq] at h
        subst hevs2
        simp only [← h, List.map_cons]
        constructor
        · rfl
        · simp [hlen]
      | stopped o =>
        rw [sampleRing, hc, hr] at h
        simp at h
      | hang =>
        rw [sampleRing, hc, hr] at h
        simp at h
    · rw [sampleRing, hc] at h
      simp at h
    · rw [sampleRing, hc] at h
      simp at h

lemma sampleRing_stops :
    ∀ (l : List Pos) (ses : ℕ → SampleEnv) (tf j n : ℕ) (o : Outcome) (dflt : Pos),
      n < l.length →
      (∀ k, k < n →
        ∃ e, (SampleElevation (l.getD k dflt) (ses (j + k)) tf).2 = SampleRes.value e) →
      (SampleElevation (l.getD n dflt) (ses (j + n)) tf).2 = SampleRes.stopped o →
      sampleRing ses tf l j =
        ((l.take n).map Event.elevRequest ++
           [Event.elevRequest (l.getD n dflt), Event.report o],
         RingRes.stopped o)
  | [], _, _, _, n, _, _, hn, _, _ => absurd hn (by simp)
  | p :: ps, ses, tf, j, 0, o, dflt, _, _, hstop => by
    have hp : (p :: ps).getD 0 dflt = p := rfl
    rw [hp] at hstop
    rw [Nat.add_zero] at hstop
    have hfull := SampleElevation_eq_stopped hstop
    rw [sampleRing, hfull]
    simp
  | p :: ps, ses, tf, j, n + 1, o, dflt, hn, hvals, hstop => by
    rcases hvals 0 (Nat.succ_pos n) with ⟨e0, he0⟩
    have hp : (p :: ps).getD 0 dflt = p := rfl
    rw [hp, Nat.add_zero] at he0
    have hfull := SampleElevation_eq_value he0
    have ih := sampleRing_stops ps ses tf (j + 1) n o dflt
      (by simpa using Nat.lt_of_succ_lt_succ hn)
      (fun k hk => by
        rcases hvals (k + 1) (Nat.succ_lt_succ hk) with ⟨e, he⟩
        refine ⟨e, ?_⟩
        have hidx : (p :: ps).getD (k + 1) dflt = ps.getD k dflt := rfl
        have hadd : j + (k + 1) = j + 1 + k := by omega
        rw [hidx, hadd] at he
        exact he)
      (by
        have hidx : (p :: ps).getD (n + 1) dflt = ps.getD n dflt := rfl
        have hadd : j + (n + 1) = j + 1 + n := by omega
        rw [hidx, hadd] at hstop
        exact hstop)
    rw [sampleRing, hfull, ih]
    simp [List.take_succ_cons]

lemma sampleRing_canceled :
    ∀ (l : List Pos) (ses : ℕ → SampleEnv) (tf j : ℕ),
      (sampleRing ses tf l j).2 = RingRes.stopped Outcome.canceled →
      ∃ k u, Check.stop ((ses k).stopAt u) = true
  | [], _, _, _, h => by simp [sampleRing] at h
  | p :: ps, ses, tf, j, h => by
    rcases SampleElevation_cases p (ses j) tf with hc | hc | hc | hc
    · rw [sampleRing, hc] at h
      simp at h
    · rcases hr : sampleRing ses tf ps (j + 1) with ⟨evs2, r2⟩
      have h2 : (sampleRing ses tf ps (j + 1)).2 = r2 := by rw [hr]
      cases r2 with
      | elevations es2 =>
        rw [sampleRing, hc, hr] at h
        simp at h
      | stopped o =>
        rw [sampleRing, hc, hr] at h
        simp only at h
        have ho : o = Outcome.canceled := by
          simpa using h
        rw [ho] at h2
        exact sampleRing_canceled ps ses tf (j + 1) h2
      | hang =>
        rw [sampleRing, hc, hr] at h
        simp at h
    · have hw := SampleElevation_canceled_wait (by rw [hc])
      rcases sampleWait_stop_observed (ses j) tf 0 hw with ⟨u, hu⟩
      exact ⟨j, u, hu⟩
    · rw [sampleRing, hc] at h
      simp at h

/-! ### Unfolding one iteration -/

lemma iteration_succeeds (ie : IterEnv) (tf : ℕ) (p : Pos) (c : ℚ)
    (es : List ℚ) (idx : ℕ) (m : ℚ)
    (hp : ie.pose = some p)
    (h0 : (SampleElevation p (ie.sample 0) tf).2 = SampleRes.value c)
    (hr : (sampleRing (fun j => ie.sample (j + 1)) tf (samplePositions p) 0).2 =
      RingRes.elevations es)
    (hmax : maxElement es = some (idx, m))
    (hm : m ≤ c) :
    iteration ie tf =
      (Event.elevRequest p ::
         ((samplePositions p).map Event.elevRequest ++
           [Event.report Outcome.succeeded]),
       IterRes.stopped Outcome.succeeded) := by
  have h0f := SampleElevation_eq_value h0
  have hrf := (sampleRing_elevations _ _ _ _ _ hr).1
  simp only [iteration, hp, h0f, hrf, hmax, if_pos hm]
  simp

lemma iteration_navigates (ie : IterEnv) (tf : ℕ) (p : Pos) (c : ℚ)
    (es : List ℚ) (idx : ℕ) (m : ℚ)
    (hp : ie.pose = some p)
    (h0 : (SampleElevation p (ie.sample 0) tf).2 = SampleRes.value c)
    (hr : (sampleRing (fun j => ie.sample (j + 1)) tf (samplePositions p) 0).2 =
      RingRes.elevations es)
    (hmax : maxElement es = some (idx, m))
    (hm : ¬ m ≤ c) :
    iteration ie tf =
      (Event.elevRequest p ::
         ((samplePositions p).map Event.elevRequest ++
           Event.navRequest ((samplePositions p).getD idx p) ::
             (navRest ie.nav tf).1),
       (navRest ie.nav tf).2) := by
  have h0f := SampleElevation_eq_value h0
  have hrf := (sampleRing_elevations _ _ _ _ _ hr).1
  simp only [iteration, hp, h0f, hrf, hmax, if_neg hm]
  by_cases hacc : ie.nav.accepted = false
  · simp [navRest, hacc]
  · rcases hnw : navWait ie.nav tf 0 with _ | b
    · simp [navRest, hacc, hnw]
    · cases b
      · simp [navRest, hacc, hnw]
      · by_cases hns : ie.nav.navSucceeded = true
        · simp [navRest, hacc, hnw, hns]
        · simp [navRest, hacc, hnw, hns]

/-! ### Trace contents -/

lemma reportsOf_append (a b : List Event) :
    reportsOf (a ++ b) = reportsOf a ++ reportsOf b :=
  List.filterMap_append a b _

lemma elevRequestsOf_append (a b : List Event) :
    elevRequestsOf (a ++ b) = elevRequestsOf a ++ elevRequestsOf b :=
  List.filterMap_append a b _

lemma reportsOf_map_elev : ∀ (l : List Pos),
    reportsOf (l.map Event.elevRequest) = []
  | [] => rfl
  | p :: ps => by
    have h := reportsOf_map_elev ps
    simp only [reportsOf] at h ⊢
    simp [List.filterMap_cons, h]

lemma elevRequestsOf_map_elev : ∀ (l : List Pos),
    elevRequestsOf (l.map Event.elevRequest) = l
  | [] => rfl
  | p :: ps => by
    have := elevRequestsOf_map_elev ps
    simpa [elevRequestsOf, List.filterMap_cons] using this

lemma elevRequestsOf_navRest (ne : NavEnv) (tf : ℕ) :
    elevRequestsOf (navRest ne tf).1 = [] := by
  rw [navRest]
  by_cases hacc : ne.accepted = false
  · simp [hacc, elevRequestsOf]
  · rcases hnw : navWait ne tf 0 with _ | b
    · simp [hacc, hnw, elevRequestsOf]
    · cases b
      · simp [hacc, hnw, elevRequestsOf]
      · by_cases hns : ne.navSucceeded = true <;>
          simp [hacc, hnw, hns, elevRequestsOf]

lemma maxElement_le_of_all_le {es : List ℚ} {c : ℚ} {idx : ℕ} {m : ℚ}
    (hmax : maxElement es = some (idx, m))
    (hle : ∀ k, k < es.length → es.getD k 0 ≤ c) : m ≤ c := by
  have hmem := maxElement_mem hmax
  rcases List.mem_iff_getElem.mp hmem with ⟨k, hk, rfl⟩
  have := hle k hk
  rwa [List.getD_eq_getElem es 0 hk] at this

lemma elevRequestsOf_nil : elevRequestsOf [] = [] := rfl

lemma elevRequestsOf_cons_elev (p : Pos) (rest : List Event) :
    elevRequestsOf (Event.elevRequest p :: rest) = p :: elevRequestsOf rest := by
  simp [elevRequestsOf, List.filterMap_cons]

lemma elevRequestsOf_cons_nav (q : Pos) (rest : List Event) :
    elevRequestsOf (Event.navRequest q :: rest) = elevRequestsOf rest := by
  simp [elevRequestsOf, List.filterMap_cons]

lemma elevRequestsOf_cons_report (o : Outcome) (rest : List Event) :
    elevRequestsOf (Event.report o :: rest) = elevRequestsOf rest := by
  simp [elevRequestsOf, List.filterMap_cons]

/-! ### Claim C1: local maximum means Succeeded with no navigation -/

/-- C1.  In any iteration of the search loop that the controller enters
(loop-top check passed, position resolved, current elevation `c` sampled,
ring elevations `es` sampled), if every ring elevation is at most the current
elevation then the loop run terminates with outcome `Succeeded`, the trace of
the iteration being exactly the nine sample requests followed by the single
`Succeeded` report — in particular no navigation request is issued. -/
theorem local_max_succeeds_without_navigation
    (env : ℕ → IterEnv) (tf f i : ℕ) (p : Pos) (c : ℚ) (es : List ℚ)
    (htop : Check.stop (env i).top = false)
    (hp : (env i).pose = some p)
    (h0 : (SampleElevation p ((env i).sample 0) tf).2 = SampleRes.value c)
    (hr : (sampleRing (fun j => (env i).sample (j + 1)) tf (samplePositions p) 0).2 =
      RingRes.elevations es)
    (hle : ∀ k, k < es.length → es.getD k 0 ≤ c) :
    loopRun env tf (f + 1) i =
      (Event.elevRequest p ::
         ((samplePositions p).map Event.elevRequest ++
           [Event.report Outcome.succeeded]),
       some Outcome.succeeded) ∧
    ∀ e ∈ (loopRun env tf (f + 1) i).1, Event.isNavRequest e = false := by
  have hlen : es.length = 8 := by
    rw [(sampleRing_elevations _ _ _ _ _ hr).2, samplePositions_length]
  have hes : es ≠ [] := List.ne_nil_of_length_pos (by omega)
  obtain ⟨⟨idx, m⟩, hmax⟩ := maxElement_isSome hes
  have hm : m ≤ c := maxElement_le_of_all_le hmax hle
  have hiter := iteration_succeeds (env i) tf p c es idx m hp h0 hr hmax hm
  have htrace : loopRun env tf (f + 1) i =
      (Event.elevRequest p ::
         ((samplePositions p).map Event.elevRequest ++
           [Event.report Outcome.succeeded]),
       some Outcome.succeeded) := by
    rw [loopRun, hiter]
    simp [htop]
  refine ⟨htrace, ?_⟩
  rw [htrace]
  intro e he
  simp only [List.mem_cons, List.mem_append, List.mem_map,
    List.mem_singleton] at he
  rcases he with rfl | he
  · rfl
  rcases he with ⟨q, _, rfl⟩ | he
  · rfl
  rcases he with rfl | he
  · rfl
  · cases he

/-- C1 witness: the concrete local-maximum environment `wEnvA`
(current elevation 5, ring elevations all 4). -/
theorem local_max_succeeds_without_navigation_witness :
    loopRun (fun _ => wEnvA) 1 1 0 =
      (Event.elevRequest ((0 : ℝ), (0 : ℝ)) ::
         ((samplePositions ((0 : ℝ), (0 : ℝ))).map Event.elevRequest ++
           [Event.report Outcome.succeeded]),
       some Outcome.succeeded) ∧
    ∀ e ∈ (loopRun (fun _ => wEnvA) 1 1 0).1, Event.isNavRequest e = false :=
  local_max_succeeds_without_navigation (fun _ => wEnvA) 1 0 0
    ((0 : ℝ), (0 : ℝ)) 5 [4, 4, 4, 4, 4, 4, 4, 4]
    rfl rfl rfl rfl (by decide)

/-! ### Claim C2: the navigation target is the lowest-index arg-max -/

/-- C2.  If the ring elevations `es` have their maximum at index `i`, with
every earlier index strictly smaller (so `i` is the first arg-max, covering
both the strict-maximum case and the tie case), and that maximum exceeds the
current elevation, then the iteration issues a navigation request whose
target is exactly the ring position at angle `i * 45°` (radius
`lookDistance` from the loop-top position `p`). -/
theorem nav_target_is_lowest_argmax
    (ie : IterEnv) (tf : ℕ) (p : Pos) (c : ℚ) (es : List ℚ) (i : ℕ)
    (hp : ie.pose = some p)
    (h0 : (SampleElevation p (ie.sample 0) tf).2 = SampleRes.value c)
    (hr : (sampleRing (fun j => ie.sample (j + 1)) tf (samplePositions p) 0).2 =
      RingRes.elevations es)
    (hi : i < es.length)
    (hbest : ∀ j, j < es.length → es.getD j 0 ≤ es.getD i 0)
    (hfirst : ∀ j, j < i → es.getD j 0 < es.getD i 0)
    (hc : c < es.getD i 0) :
    (iteration ie tf).1 =
      Event.elevRequest p ::
        ((samplePositions p).map Event.elevRequest ++
          Event.navRequest
              (lookDistance * Real.cos (i * (Real.pi / 4)) + p.1,
               lookDistance * Real.sin (i * (Real.pi / 4)) + p.2) ::
            (navRest ie.nav tf).1) := by
  have hmax := maxElement_least hi hbest hfirst
  have hm : ¬ es.getD i 0 ≤ c := not_le.mpr hc
  have hiter := iteration_navigates ie tf p c es i (es.getD i 0) hp h0 hr hmax hm
  have hlen : es.length = 8 := by
    rw [(sampleRing_elevations _ _ _ _ _ hr).2, samplePositions_length]
  have hi8 : i < 8 := by omega
  have hget := samplePositions_getD p p i hi8
  rw [hiter, hget]

/-- C2 witness: the concrete environment `wEnvB` (current elevation 5, ring
elevations `[3, 4, 7, 1, 0, 1, 2, 3]`, first arg-max at index 2). -/
theorem nav_target_is_lowest_argmax_witness :
    (iteration wEnvB 1).1 =
      Event.elevRequest ((0 : ℝ), (0 : ℝ)) ::
        ((samplePositions ((0 : ℝ), (0 : ℝ))).map Event.elevRequest ++
          Event.navRequest
              (lookDistance * Real.cos ((2 : ℕ) * (Real.pi / 4)) + ((0 : ℝ), (0 : ℝ)).1,
               lookDistance * Real.sin ((2 : ℕ) * (Real.pi / 4)) + ((0 : ℝ), (0 : ℝ)).2) ::
            (navRest wEnvB.nav 1).1) :=
  nav_target_is_lowest_argmax wEnvB 1 ((0 : ℝ), (0 : ℝ)) 5
    [3, 4, 7, 1, 0, 1, 2, 3] 2 rfl rfl rfl (by decide) (by decide) (by decide)
    (by decide)

/-! ### Claim C3: the ring sampling pattern -/

/-- C3.  In any iteration whose sampling phase completes, the elevation
requests issued are exactly one at the loop-top position `p` followed by the
8 ring positions computed from that same `p`; the ring position of index `k`
is at angle `k * 45°` (in increasing-angle order) and at distance exactly
`lookDistance = 0.1` from `p`. -/
theorem ring_sampling_pattern
    (ie : IterEnv) (tf : ℕ) (p : Pos) (c : ℚ) (es : List ℚ)
    (hp : ie.pose = some p)
    (h0 : (SampleElevation p (ie.sample 0) tf).2 = SampleRes.value c)
    (hr : (sampleRing (fun j => ie.sample (j + 1)) tf (samplePositions p) 0).2 =
      RingRes.elevations es) :
    elevRequestsOf (iteration ie tf).1 = p :: samplePositions p ∧
    (samplePositions p).length = 8 ∧
    (∀ k, k < 8 → (samplePositions p).getD k p =
      (lookDistance * Real.cos (k * (Real.pi / 4)) + p.1,
       lookDistance * Real.sin (k * (Real.pi / 4)) + p.2)) ∧
    (∀ k, k < 8 →
      Real.sqrt ((((samplePositions p).getD k p).1 - p.1) ^ 2 +
                 (((samplePositions p).getD k p).2 - p.2) ^ 2) = lookDistance) := by
  have hlen : es.length = 8 := by
    rw [(sampleRing_elevations _ _ _ _ _ hr).2, samplePositions_length]
  have hes : es ≠ [] := List.ne_nil_of_length_pos (by omega)
  obtain ⟨⟨idx, m⟩, hmax⟩ := maxElement_isSome hes
  have hfirstconj : elevRequestsOf (iteration ie tf).1 = p :: samplePositions p := by
    by_cases hm : m ≤ c
    · rw [iteration_succeeds ie tf p c es idx m hp h0 hr hmax hm]
      simp [elevRequestsOf_cons_elev, elevRequestsOf_append,
        elevRequestsOf_map_elev, elevRequestsOf_cons_report, elevRequestsOf_nil]
    · rw [iteration_navigates ie tf p c es idx m hp h0 hr hmax hm]
      simp [elevRequestsOf_cons_elev, elevRequestsOf_append,
        elevRequestsOf_map_elev, elevRequestsOf_cons_nav, elevRequestsOf_navRest]
  exact ⟨hfirstconj, samplePositions_length p,
    fun k hk => samplePositions_getD p p k hk,
    fun k hk => samplePositions_radius p p k hk⟩

/-- C3 witness: the concrete environment `wEnvA`. -/
theorem ring_sampling_pattern_witness :
    elevRequestsOf (iteration wEnvA 1).1 =
      ((0 : ℝ), (0 : ℝ)) :: samplePositions ((0 : ℝ), (0 : ℝ)) ∧
    (samplePositions ((0 : ℝ), (0 : ℝ))).length = 8 ∧
    (∀ k, k < 8 → (samplePositions ((0 : ℝ), (0 : ℝ))).getD k ((0 : ℝ), (0 : ℝ)) =
      (lookDistance * Real.cos (k * (Real.pi / 4)) + ((0 : ℝ), (0 : ℝ)).1,
       lookDistance * Real.sin (k * (Real.pi / 4)) + ((0 : ℝ), (0 : ℝ)).2)) ∧
    (∀ k, k < 8 →
      Real.sqrt
        ((((samplePositions ((0 : ℝ), (0 : ℝ))).getD k ((0 : ℝ), (0 : ℝ))).1 -
            ((0 : ℝ), (0 : ℝ)).1) ^ 2 +
         (((samplePositions ((0 : ℝ), (0 : ℝ))).getD k ((0 : ℝ), (0 : ℝ))).2 -
            ((0 : ℝ), (0 : ℝ)).2) ^ 2) = lookDistance) :=
  ring_sampling_pattern wEnvA 1 ((0 : ℝ), (0 : ℝ)) 5 [4, 4, 4, 4, 4, 4, 4, 4]
    rfl rfl rfl

/-! ### Claim C5: cancellation during the navigation poll -/

/-- C5.  If the controller reaches the navigation phase (request accepted)
and the stop condition is observed during the navigation poll loop, the loop
run terminates with outcome `Canceled`, and the trace ends with the
`navigator_.cancel()` call followed by the `Canceled` report: the navigator
is cancelled before the outcome is reported, and nothing follows. -/
theorem nav_poll_cancellation_cancels_navigator
    (env : ℕ → IterEnv) (tf f i : ℕ) (p : Pos) (c : ℚ) (es : List ℚ)
    (idx : ℕ) (m : ℚ)
    (htop : Check.stop (env i).top = false)
    (hp : (env i).pose = some p)
    (h0 : (SampleElevation p ((env i).sample 0) tf).2 = SampleRes.value c)
    (hr : (sampleRing (fun j => (env i).sample (j + 1)) tf (samplePositions p) 0).2 =
      RingRes.elevations es)
    (hmax : maxElement es = some (idx, m))
    (hm : ¬ m ≤ c)
    (hacc : (env i).nav.accepted = true)
    (hw : navWait (env i).nav tf 0 = some false) :
    loopRun env tf (f + 1) i =
      ((Event.elevRequest p ::
          ((samplePositions p).map Event.elevRequest ++
            [Event.navRequest ((samplePositions p).getD idx p)])) ++
         [Event.navCancel, Event.report Outcome.canceled],
       some Outcome.canceled) := by
  have hnr : navRest (env i).nav tf =
      ([Event.navCancel, Event.report Outcome.canceled],
       IterRes.stopped Outcome.canceled) := by
    simp [navRest, hacc, hw]
  have hiter := iteration_navigates (env i) tf p c es idx m hp h0 hr hmax hm
  rw [hnr] at hiter
  rw [loopRun, hiter]
  simp [htop]

/-- C5 witness: the concrete environment `wEnvC` (ring maximum 6 above the
current elevation 5; navigation accepted, never completing, cancellation
observed at the first poll tick). -/
theorem nav_poll_cancellation_cancels_navigator_witness :
    loopRun (fun _ => wEnvC) 1 1 0 =
      ((Event.elevRequest ((0 : ℝ), (0 : ℝ)) ::
          ((samplePositions ((0 : ℝ), (0 : ℝ))).map Event.elevRequest ++
            [Event.navRequest
                ((samplePositions ((0 : ℝ), (0 : ℝ))).getD 0 ((0 : ℝ), (0 : ℝ)))])) ++
         [Event.navCancel, Event.report Outcome.canceled],
       some Outcome.canceled) :=
  nav_poll_cancellation_cancels_navigator (fun _ => wEnvC) 1 0 0
    ((0 : ℝ), (0 : ℝ)) 5 [6, 6, 6, 6, 6, 6, 6, 6] 0 6
    rfl rfl rfl rfl rfl (by decide) rfl rfl

/-! ### Claim C6: precondition failures abort before the loop -/

/-- C6.  If any of the three start-up preconditions fails (elevation service
not ready, TF transform unavailable, or navigation server unavailable), the
goal is aborted with a trace consisting of the single `Aborted` report: no
elevation request and no navigation request is ever issued. -/
theorem precondition_failure_aborts_without_requests
    (s : StartEnv) (env : ℕ → IterEnv) (tf itf : ℕ)
    (h : s.elevReady = false ∨ s.canTransform = false ∨ s.navAvailable = false) :
    execute s env tf itf = ([Event.report Outcome.aborted], some Outcome.aborted) ∧
    elevRequestsOf (execute s env tf itf).1 = [] ∧
    ∀ e ∈ (execute s env tf itf).1, Event.isNavRequest e = false := by
  have hex : execute s env tf itf =
      ([Event.report Outcome.aborted], some Outcome.aborted) := by
    rcases h with h | h | h
    · simp [execute, h]
    · by_cases h1 : s.elevReady = false <;> simp [execute, h1, h]
    · by_cases h1 : s.elevReady = false
      · simp [execute, h1]
      · by_cases h2 : s.canTransform = false <;> simp [execute, h1, h2, h]
  refine ⟨hex, ?_, ?_⟩
  · rw [hex]
    simp [elevRequestsOf_cons_report, elevRequestsOf_nil]
  · rw [hex]
    intro e he
    simp only [List.mem_singleton] at he
    subst he
    rfl

/-- C6 witness: the start environment `sNoElev` with the elevation service
unavailable. -/
theorem precondition_failure_aborts_without_requests_witness :
    execute sNoElev (fun _ => wEnvA) 1 1 =
      ([Event.report Outcome.aborted], some Outcome.aborted) ∧
    elevRequestsOf (execute sNoElev (fun _ => wEnvA) 1 1).1 = [] ∧
    ∀ e ∈ (execute sNoElev (fun _ => wEnvA) 1 1).1, Event.isNavRequest e = false :=
  precondition_failure_aborts_without_requests sNoElev (fun _ => wEnvA) 1 1
    (Or.inl rfl)

/-! ### Report counting (towards C7) -/

lemma reportsOf_nil : reportsOf [] = [] := rfl

lemma reportsOf_cons_elev (p : Pos) (rest : List Event) :
    reportsOf (Event.elevRequest p :: rest) = reportsOf rest := by
  simp [reportsOf, List.filterMap_cons]

lemma reportsOf_cons_nav (q : Pos) (rest : List Event) :
    reportsOf (Event.navRequest q :: rest) = reportsOf rest := by
  simp [reportsOf, List.filterMap_cons]

lemma reportsOf_cons_navCancel (rest : List Event) :
    reportsOf (Event.navCancel :: rest) = reportsOf rest := by
  simp [reportsOf, List.filterMap_cons]

lemma reportsOf_cons_report (o : Outcome) (rest : List Event) :
    reportsOf (Event.report o :: rest) = o :: reportsOf rest := by
  simp [reportsOf, List.filterMap_cons]

lemma SampleElevation_eq_hang {pos : Pos} {se : SampleEnv} {tf : ℕ}
    (h : (SampleElevation pos se tf).2 = SampleRes.hang) :
    SampleElevation pos se tf = ([Event.elevRequest pos], SampleRes.hang) := by
  rcases SampleElevation_cases pos se tf with hc | hc | hc | hc
  · exact hc
  · rw [hc] at h
    simp at h
  · rw [hc] at h
    simp at h
  · rw [hc] at h
    simp at h

lemma sampleRing_reports :
    ∀ (l : List Pos) (ses : ℕ → SampleEnv) (tf j : ℕ) (evs : List Event)
      (r : RingRes), sampleRing ses tf l j = (evs, r) →
      (∀ es, r = RingRes.elevations es → reportsOf evs = []) ∧
      (r = RingRes.hang → reportsOf evs = []) ∧
      (∀ o, r = RingRes.stopped o →
        ∃ pre, evs = pre ++ [Event.report o] ∧ reportsOf pre = [])
  | [], ses, tf, j, evs, r, h => by
    rw [sampleRing] at h
    injection h with h1 h2
    subst h1
    subst h2
    refine ⟨?_, ?_, ?_⟩
    · intro es _
      rfl
    · intro hh
      cases hh
    · intro o ho
      cases ho
  | p :: ps, ses, tf, j, evs, r, h => by
    rcases SampleElevation_cases p (ses j) tf with hc | hc | hc | hc
    · rw [sampleRing, hc] at h
      injection h with h1 h2
      subst h1
      subst h2
      refine ⟨?_, ?_, ?_⟩
      · intro es hes
        cases hes
      · intro _
        rfl
      · intro o ho
        cases ho
    · rcases hr2 : sampleRing ses tf ps (j + 1) with ⟨evs2, r2⟩
      have ih := sampleRing_reports ps ses tf (j + 1) evs2 r2 hr2
      rw [sampleRing, hc, hr2] at h
      cases r2 with
      | elevations es2 =>
        injection h with h1 h2
        subst h1
        subst h2
        refine ⟨?_, ?_, ?_⟩
        · intro es _
          rw [reportsOf_append, ih.1 es2 rfl]
          rfl
        · intro hh
          cases hh
        · intro o ho
          cases ho
      | stopped o2 =>
        injection h with h1 h2
        subst h1
        subst h2
        refine ⟨?_, ?_, ?_⟩
        · intro es hes
          cases hes
        · intro hh
          cases hh
        · intro o ho
          cases ho
          obtain ⟨pre, hpre, hrep⟩ := ih.2.2 o2 rfl
          refine ⟨Event.elevRequest p :: pre, ?_, ?_⟩
          · rw [hpre]
            rfl
          · rw [reportsOf_cons_elev, hrep]
      | hang =>
        injection h with h1 h2
        subst h1
        subst h2
        refine ⟨?_, ?_, ?_⟩
        · intro es hes
          cases hes
        · intro _
          rw [reportsOf_append, ih.2.1 rfl]
          rfl
        · intro o ho
          cases ho
    · rw [sampleRing, hc] at h
      injection h with h1 h2
      subst h1
      subst h2
      refine ⟨?_, ?_, ?_⟩
      · intro es hes
        cases hes
      · intro hh
        cases hh
      · intro o ho
        cases ho
        exact ⟨[Event.elevRequest p], rfl, rfl⟩
    · rw [sampleRing, hc] at h
      injection h with h1 h2
      subst h1
      subst h2
      refine ⟨?_, ?_, ?_⟩
      · intro es hes
        cases hes
      · intro hh
        cases hh
      · intro o ho
        cases ho
        exact ⟨[Event.elevRequest p], rfl, rfl⟩

lemma navRest_reports (ne : NavEnv) (tf : ℕ) (evs : List Event) (r : IterRes)
    (h : navRest ne tf = (evs, r)) :
    (r = IterRes.cont → reportsOf evs = []) ∧
    (r = IterRes.hang → reportsOf evs = []) ∧
    (∀ o, r = IterRes.stopped o →
      ∃ pre, evs = pre ++ [Event.report o] ∧ reportsOf pre = []) := by
  rw [navRest] at h
  split at h
  · injection h with h1 h2
    subst h1
    subst h2
    refine ⟨?_, ?_, ?_⟩
    · intro hh
      cases hh
    · intro hh
      cases hh
    · intro o ho
      cases ho
      exact ⟨[], rfl, rfl⟩
  · split at h
    · injection h with h1 h2
      subst h1
      subst h2
      refine ⟨?_, ?_, ?_⟩
      · intro hh
        cases hh
      · intro _
        rfl
      · intro o ho
        cases ho
    · injection h with h1 h2
      subst h1
      subst h2
      refine ⟨?_, ?_, ?_⟩
      · intro hh
        cases hh
      · intro hh
        cases hh
      · intro o ho
        cases ho
        exact ⟨[Event.navCancel], rfl, rfl⟩
    · split at h
      · injection h with h1 h2
        subst h1
        subst h2
        refine ⟨?_, ?_, ?_⟩
        · intro _
          rfl
        · intro hh
          cases hh
        · intro o ho
          cases ho
      · injection h with h1 h2
        subst h1
        subst h2
        refine ⟨?_, ?_, ?_⟩
        · intro hh
          cases hh
        · intro hh
          cases hh
        · intro o ho
          cases ho
          exact ⟨[], rfl, rfl⟩

lemma iteration_reports (ie : IterEnv) (tf : ℕ) (evs : List Event) (r : IterRes)
    (h : iteration ie tf = (evs, r)) :
    (r = IterRes.cont → reportsOf evs = []) ∧
    (r = IterRes.hang → reportsOf evs = []) ∧
    (∀ o, r = IterRes.stopped o →
      ∃ pre, evs = pre ++ [Event.report o] ∧ reportsOf pre = []) := by
  rcases hpose : ie.pose with _ | p
  · simp only [iteration, hpose] at h
    injection h with h1 h2
    subst h1
    subst h2
    refine ⟨?_, ?_, ?_⟩
    · intro hh
      cases hh
    · intro hh
      cases hh
    · intro o ho
      cases ho
      exact ⟨[], rfl, rfl⟩
  · rcases SampleElevation_cases p (ie.sample 0) tf with hc | hc | hc | hc
    · simp only [iteration, hpose, hc] at h
      injection h with h1 h2
      subst h1
      subst h2
      refine ⟨?_, ?_, ?_⟩
      · intro hh
        cases hh
      · intro _
        rfl
      · intro o ho
        cases ho
    · rcases hr2 : sampleRing (fun j => ie.sample (j + 1)) tf (samplePositions p) 0
        with ⟨evs2, r2⟩
      have ih := sampleRing_reports _ _ tf 0 evs2 r2 hr2
      cases r2 with
      | hang =>
        simp only [iteration, hpose, hc, hr2] at h
        injection h with h1 h2
        subst h1
        subst h2
        refine ⟨?_, ?_, ?_⟩
        · intro hh
          cases hh
        · intro _
          rw [reportsOf_append, ih.2.1 rfl]
          rfl
        · intro o ho
          cases ho
      | stopped o2 =>
        simp only [iteration, hpose, hc, hr2] at h
        injection h with h1 h2
        subst h1
        subst h2
        refine ⟨?_, ?_, ?_⟩
        · intro hh
          cases hh
        · intro hh
          cases hh
        · intro o ho
          cases ho
          obtain ⟨pre, hpre, hrep⟩ := ih.2.2 o2 rfl
          refine ⟨Event.elevRequest p :: pre, ?_, ?_⟩
          · rw [hpre]
            rfl
          · rw [reportsOf_cons_elev, hrep]
      | elevations es =>
        have hes8 : es.length = 8 := by
          rw [(sampleRing_elevations _ _ _ _ _ (by rw [hr2])).2,
            samplePositions_length]
        obtain ⟨⟨idx, m⟩, hmax⟩ :=
          @maxElement_isSome es (List.ne_nil_of_length_pos (by omega))
        have hr2' : (sampleRing (fun j => ie.sample (j + 1)) tf
            (samplePositions p) 0).2 = RingRes.elevations es := by rw [hr2]
        by_cases hm : m ≤ (ie.sample 0).elevation
        · have hit := iteration_succeeds ie tf p (ie.sample 0).elevation es idx m
            hpose (by rw [hc]) hr2' hmax hm
          rw [hit] at h
          injection h with h1 h2
          subst h1
          subst h2
          refine ⟨?_, ?_, ?_⟩
          · intro hh
            cases hh
          · intro hh
            cases hh
          · intro o ho
            cases ho
            refine ⟨Event.elevRequest p ::
              (samplePositions p).map Event.elevRequest, ?_, ?_⟩
            · simp
            · rw [reportsOf_cons_elev, reportsOf_map_elev]
        · have hit := iteration_navigates ie tf p (ie.sample 0).elevation es idx m
            hpose (by rw [hc]) hr2' hmax hm
          rcases hnr : navRest ie.nav tf with ⟨nevs, nr⟩
          have ihn := navRest_reports ie.nav tf nevs nr hnr
          rw [hnr] at hit
          rw [hit] at h
          injection h with h1 h2
          subst h1
          subst h2
          refine ⟨?_, ?_, ?_⟩
          · intro hh
            rw [reportsOf_cons_elev, reportsOf_append, reportsOf_map_elev,
              reportsOf_cons_nav, ihn.1 hh]
            rfl
          · intro hh
            rw [reportsOf_cons_elev, reportsOf_append, reportsOf_map_elev,
              reportsOf_cons_nav, ihn.2.1 hh]
            rfl
          · intro o ho
            obtain ⟨pre, hpre, hrep⟩ := ihn.2.2 o ho
            refine ⟨Event.elevRequest p ::
              ((samplePositions p).map Event.elevRequest ++
                Event.navRequest ((samplePositions p).getD idx p) :: pre), ?_, ?_⟩
            · rw [hpre]
              simp
            · rw [reportsOf_cons_elev, reportsOf_append, reportsOf_map_elev,
                reportsOf_cons_nav, hrep]
              rfl
    · simp only [iteration, hpose, hc] at h
      injection h with h1 h2
      subst h1
      subst h2
      refine ⟨?_, ?_, ?_⟩
      · intro hh
        cases hh
      · intro hh
        cases hh
      · intro o ho
        cases ho
        exact ⟨[Event.elevRequest p], rfl, rfl⟩
    · simp only [iteration, hpose, hc] at h
      injection h with h1 h2
      subst h1
      subst h2
      refine ⟨?_, ?_, ?_⟩
      · intro hh
        cases hh
      · intro hh
        cases hh
      · intro o ho
        cases ho
        exact ⟨[Event.elevRequest p], rfl, rfl⟩

lemma loopRun_reports :
    ∀ (f : ℕ) (env : ℕ → IterEnv) (tf i : ℕ) (evs : List Event)
      (r : Option Outcome), loopRun env tf f i = (evs, r) →
      (∀ o, r = some o →
        ∃ pre, evs = pre ++ [Event.report o] ∧ reportsOf pre = []) ∧
      (r = none → reportsOf evs = [])
  | 0, env, tf, i, evs, r, h => by
    rw [loopRun] at h
    injection h with h1 h2
    subst h1
    subst h2
    refine ⟨?_, ?_⟩
    · intro o ho
      cases ho
    · intro _
      rfl
  | f + 1, env, tf, i, evs, r, h => by
    by_cases htop : Check.stop (env i).top = true
    · rw [loopRun, if_pos htop] at h
      injection h with h1 h2
      subst h1
      subst h2
      refine ⟨?_, ?_⟩
      · intro o ho
        injection ho with ho
        subst ho
        exact ⟨[], rfl, rfl⟩
      · intro ho
        cases ho
    · rw [loopRun, if_neg htop] at h
      rcases hit : iteration (env i) tf with ⟨evs1, r1⟩
      have ihit := iteration_reports (env i) tf evs1 r1 hit
      rw [hit] at h
      cases r1 with
      | stopped o1 =>
        injection h with h1 h2
        subst h1
        subst h2
        refine ⟨?_, ?_⟩
        · intro o ho
          injection ho with ho
          subst ho
          exact ihit.2.2 o1 rfl
        · intro ho
          cases ho
      | hang =>
        injection h with h1 h2
        subst h1
        subst h2
        refine ⟨?_, ?_⟩
        · intro o ho
          cases ho
        · intro _
          exact ihit.2.1 rfl
      | cont =>
        rcases hrec : loopRun env tf f (i + 1) with ⟨evs2, r2⟩
        have ihr := loopRun_reports f env tf (i + 1) evs2 r2 hrec
        rw [hrec] at h
        injection h with h1 h2
        subst h1
        subst h2
        have hev1 : reportsOf evs1 = [] := ihit.1 rfl
        refine ⟨?_, ?_⟩
        · intro o ho
          obtain ⟨pre, hpre, hrep⟩ := ihr.1 o ho
          refine ⟨evs1 ++ pre, ?_, ?_⟩
          · rw [hpre, List.append_assoc]
          · rw [reportsOf_append, hev1, hrep]
            rfl
        · intro ho
          rw [reportsOf_append, hev1, ihr.2 ho]
          rfl

/-! ### Claim C7: at most one terminal outcome, reported last -/

/-- C7.  For every start environment, iteration environments, and fuel: if
the goal execution terminates with outcome `o` (second component `some o`),
the trace contains exactly one report event, namely `report o`, and it is the
very last event of the trace — so no elevation or navigation request follows
a terminal outcome; if the execution is still running (`none`, fuel
exhausted inside a wait or the loop), no outcome has been reported at all. -/
theorem outcome_reported_exactly_once
    (s : StartEnv) (env : ℕ → IterEnv) (tf itf : ℕ) (evs : List Event)
    (r : Option Outcome) (h : execute s env tf itf = (evs, r)) :
    (∀ o, r = some o → reportsOf evs = [o] ∧
      ∃ pre, evs = pre ++ [Event.report o] ∧ reportsOf pre = []) ∧
    (r = none → reportsOf evs = []) := by
  have key : (∀ o, r = some o →
      ∃ pre, evs = pre ++ [Event.report o] ∧ reportsOf pre = []) ∧
      (r = none → reportsOf evs = []) := by
    by_cases h1 : s.elevReady = false
    · rw [execute, if_pos h1] at h
      injection h with ha hb
      subst ha
      subst hb
      refine ⟨?_, ?_⟩
      · intro o ho
        injection ho with ho
        subst ho
        exact ⟨[], rfl, rfl⟩
      · intro ho
        cases ho
    · by_cases h2 : s.canTransform = false
      · rw [execute, if_neg h1, if_pos h2] at h
        injection h with ha hb
        subst ha
        subst hb
        refine ⟨?_, ?_⟩
        · intro o ho
          injection ho with ho
          subst ho
          exact ⟨[], rfl, rfl⟩
        · intro ho
          cases ho
      · by_cases h3 : s.navAvailable = false
        · rw [execute, if_neg h1, if_neg h2, if_pos h3] at h
          injection h with ha hb
          subst ha
          subst hb
          refine ⟨?_, ?_⟩
          · intro o ho
            injection ho with ho
            subst ho
            exact ⟨[], rfl, rfl⟩
          · intro ho
            cases ho
        · rw [execute, if_neg h1, if_neg h2, if_neg h3] at h
          exact loopRun_reports itf env tf 0 evs r h
  refine ⟨?_, key.2⟩
  intro o ho
  obtain ⟨pre, hpre, hrep⟩ := key.1 o ho
  subst hpre
  refine ⟨?_, pre, rfl, hrep⟩
  rw [reportsOf_append, hrep]
  rfl

/-- C7 witness: the concrete run with the elevation service unavailable,
terminating immediately with the single `Aborted` report. -/
theorem outcome_reported_exactly_once_witness :
    (∀ o, (some Outcome.aborted : Option Outcome) = some o →
      reportsOf [Event.report Outcome.aborted] = [o] ∧
      ∃ pre, [Event.report Outcome.aborted] = pre ++ [Event.report o] ∧
        reportsOf pre = []) ∧
    ((some Outcome.aborted : Option Outcome) = none →
      reportsOf [Event.report Outcome.aborted] = []) :=
  outcome_reported_exactly_once sNoElev (fun _ => wEnvA) 1 1
    [Event.report Outcome.aborted] (some Outcome.aborted) rfl

/-! ### Claim C8: what can cause a `Canceled` outcome -/

lemma iteration_canceled (ie : IterEnv) (tf : ℕ)
    (h : (iteration ie tf).2 = IterRes.stopped Outcome.canceled) :
    (∃ j u, Check.stop ((ie.sample j).stopAt u) = true) ∨
    (∃ u, Check.stop (ie.nav.stopAt u) = true) := by
  rcases hpose : ie.pose with _ | p
  · simp [iteration, hpose] at h
  · rcases SampleElevation_cases p (ie.sample 0) tf with hc | hc | hc | hc
    · simp [iteration, hpose, hc] at h
    · rcases hr2 : sampleRing (fun j => ie.sample (j + 1)) tf (samplePositions p) 0
        with ⟨evs2, r2⟩
      cases r2 with
      | hang => simp [iteration, hpose, hc, hr2] at h
      | stopped o2 =>
        simp only [iteration, hpose, hc, hr2] at h
        have ho2 : o2 = Outcome.canceled := by simpa using h
        subst ho2
        obtain ⟨k, u, hu⟩ :=
          sampleRing_canceled (samplePositions p) (fun j => ie.sample (j + 1))
            tf 0 (by rw [hr2])
        exact Or.inl ⟨k + 1, u, hu⟩
      | elevations es =>
        rcases hmax : maxElement es with _ | ⟨idx, m⟩
        · simp [iteration, hpose, hc, hr2, hmax] at h
        · by_cases hm : m ≤ (ie.sample 0).elevation
          · simp [iteration, hpose, hc, hr2, hmax, hm] at h
          · by_cases hacc : ie.nav.accepted = false
            · simp [iteration, hpose, hc, hr2, hmax, hm, hacc] at h
            · rcases hnw : navWait ie.nav tf 0 with _ | b
              · simp [iteration, hpose, hc, hr2, hmax, hm, hacc, hnw] at h
              · cases b
                · exact Or.inr (navWait_stop_observed ie.nav tf 0 hnw)
                · by_cases hns : ie.nav.navSucceeded = true <;>
                    simp [iteration, hpose, hc, hr2, hmax, hm, hacc, hnw, hns] at h
    · simp only [iteration, hpose, hc] at h
      obtain ⟨u, hu⟩ :=
        sampleWait_stop_observed (ie.sample 0) tf 0
          (SampleElevation_canceled_wait (by rw [hc]))
      exact Or.inl ⟨0, u, hu⟩
    · simp [iteration, hpose, hc] at h

lemma loopRun_canceled :
    ∀ (f : ℕ) (env : ℕ → IterEnv) (tf i : ℕ),
      (loopRun env tf f i).2 = some Outcome.canceled →
      ∃ i2, Check.stop (env i2).top = true ∨
        (∃ j u, Check.stop (((env i2).sample j).stopAt u) = true) ∨
        (∃ u, Check.stop ((env i2).nav.stopAt u) = true)
  | 0, env, tf, i, h => by simp [loopRun] at h
  | f + 1, env, tf, i, h => by
    by_cases htop : Check.stop (env i).top = true
    · exact ⟨i, Or.inl htop⟩
    · rw [loopRun, if_neg htop] at h
      rcases hit : iteration (env i) tf with ⟨evs1, r1⟩
      rw [hit] at h
      cases r1 with
      | stopped o1 =>
        have ho1 : o1 = Outcome.canceled := by simpa using h
        subst ho1
        have hcanc := iteration_canceled (env i) tf (by rw [hit])
        rcases hcanc with hcanc | hcanc
        · exact ⟨i, Or.inr (Or.inl hcanc)⟩
        · exact ⟨i, Or.inr (Or.inr hcanc)⟩
      | hang => simp at h
      | cont =>
        rcases hrec : loopRun env tf f (i + 1) with ⟨evs2, r2⟩
        rw [hrec] at h
        have h2 : (loopRun env tf f (i + 1)).2 = some Outcome.canceled := by
          rw [hrec]
          simpa using h
        exact loopRun_canceled f env tf (i + 1) h2

/-- C8 (amended).  A `Canceled` outcome arises only when the stop condition
`!rclcpp::ok() || goal_handle->is_canceling()` — caller cancellation OR
process shutdown — was observed at one of the cooperative checkpoints: the
loop top, an elevation-sample wait tick, or a navigation poll tick. -/
theorem canceled_only_when_stop_observed
    (s : StartEnv) (env : ℕ → IterEnv) (tf itf : ℕ)
    (h : (execute s env tf itf).2 = some Outcome.canceled) :
    ∃ i, Check.stop (env i).top = true ∨
      (∃ j u, Check.stop (((env i).sample j).stopAt u) = true) ∨
      (∃ u, Check.stop ((env i).nav.stopAt u) = true) := by
  by_cases h1 : s.elevReady = false
  · simp [execute, h1] at h
  · by_cases h2 : s.canTransform = false
    · simp [execute, h1, h2] at h
    · by_cases h3 : s.navAvailable = false
      · simp [execute, h1, h2, h3] at h
      · rw [execute, if_neg h1, if_neg h2, if_neg h3] at h
        exact loopRun_canceled itf env tf 0 h

/-- C8 (amended) witness: caller cancellation observed at the loop top. -/
theorem canceled_only_when_stop_observed_witness :
    ∃ i : ℕ, Check.stop wEnvG.top = true ∨
      (∃ j u, Check.stop ((wEnvG.sample j).stopAt u) = true) ∨
      (∃ u, Check.stop ((wEnvG.nav.stopAt u)) = true) :=
  canceled_only_when_stop_observed sAllOk (fun _ => wEnvG) 1 1 rfl

/-- C8 counterexample to the claim as stated: with all preconditions
satisfied and the caller never cancelling (`is_canceling` is `false` at the
loop-top check and at every wait tick of `wEnvF`), process shutdown alone
(`rclcpp::ok() = false` at the loop top) still drives the goal to the
`Canceled` outcome — so caller cancellation is not the only event that
produces `Canceled`. -/
theorem canceled_without_caller_cancellation :
    (execute sAllOk (fun _ => wEnvF) 1 1).2 = some Outcome.canceled ∧
    wEnvF.top.canceling = false ∧
    wEnvF.top.ok = false ∧
    ((wEnvF.sample 0).stopAt 0).canceling = false ∧
    ((wEnvF.nav.stopAt 0)).canceling = false :=
  ⟨rfl, rfl, rfl, rfl, rfl⟩

/-! ### Claims C9 and C10: stopping inside the sampling phase -/

lemma SampleElevation_server_fail (pos : Pos) (se : SampleEnv) (tf : ℕ)
    (hready : sampleWait se tf 0 = some true) (hfail : se.success = false) :
    SampleElevation pos se tf =
      ([Event.elevRequest pos, Event.report Outcome.aborted],
       SampleRes.stopped Outcome.aborted) := by
  simp [SampleElevation, hready, hfail]

lemma SampleElevation_wait_canceled (pos : Pos) (se : SampleEnv) (tf : ℕ)
    (hw : sampleWait se tf 0 = some false) :
    SampleElevation pos se tf =
      ([Event.elevRequest pos, Event.report Outcome.canceled],
       SampleRes.stopped Outcome.canceled) := by
  simp [SampleElevation, hw]

/-- C9.  If the `n`-th elevation-sample call of an iteration (call 0 is the
current position, calls 1..8 the ring positions) receives a
`success = false` response after the first `n` calls returned values, the
loop run terminates at once with outcome `Aborted`: the trace is exactly the
`n+1` sample requests issued so far followed by the single `Aborted` report —
no further ring samples and no navigation request. -/
theorem sample_failure_aborts_immediately
    (env : ℕ → IterEnv) (tf f i n : ℕ) (p : Pos)
    (htop : Check.stop (env i).top = false)
    (hp : (env i).pose = some p)
    (hn : n < 9)
    (hvals : ∀ k, k < n → ∃ e,
      (SampleElevation ((p :: samplePositions p).getD k p)
        ((env i).sample k) tf).2 = SampleRes.value e)
    (hready : sampleWait ((env i).sample n) tf 0 = some true)
    (hfail : ((env i).sample n).success = false) :
    loopRun env tf (f + 1) i =
      (((p :: samplePositions p).take n).map Event.elevRequest ++
         [Event.elevRequest ((p :: samplePositions p).getD n p),
          Event.report Outcome.aborted],
       some Outcome.aborted) := by
  have hstop := SampleElevation_server_fail
    ((p :: samplePositions p).getD n p) ((env i).sample n) tf hready hfail
  match n, hn with
  | 0, _ =>
    have hget : (p :: samplePositions p).getD 0 p = p := rfl
    rw [hget] at hstop
    have hit : iteration (env i) tf =
        ([Event.elevRequest p, Event.report Outcome.aborted],
         IterRes.stopped Outcome.aborted) := by
      simp only [iteration, hp, hstop]
    rw [loopRun, hit]
    simp [htop, hget]
  | m + 1, hn =>
    obtain ⟨c0, hc0⟩ := hvals 0 (Nat.succ_pos m)
    have hget0 : (p :: samplePositions p).getD 0 p = p := rfl
    rw [hget0] at hc0
    have h0f := SampleElevation_eq_value hc0
    have hm8 : m < (samplePositions p).length := by
      rw [samplePositions_length]
      omega
    have hringstop := sampleRing_stops (samplePositions p)
      (fun j => (env i).sample (j + 1)) tf 0 m Outcome.aborted p hm8
      (fun k hk => by
        rcases hvals (k + 1) (by omega) with ⟨e, he⟩
        exact ⟨e, by simpa using he⟩)
      (by simpa using congrArg Prod.snd hstop)
    have hit : iteration (env i) tf =
        ([Event.elevRequest p] ++
           (((samplePositions p).take m).map Event.elevRequest ++
             [Event.elevRequest ((samplePositions p).getD m p),
              Event.report Outcome.aborted]),
         IterRes.stopped Outcome.aborted) := by
      simp only [iteration, hp, h0f, hringstop]
    rw [loopRun, hit]
    simp [htop, List.take_succ_cons]

/-- C9 witness: the concrete environment `wEnvD`, whose third sample call
(second ring position) receives a `success = false` response. -/
theorem sample_failure_aborts_immediately_witness :
    loopRun (fun _ => wEnvD) 1 1 0 =
      (((((0 : ℝ), (0 : ℝ)) :: samplePositions ((0 : ℝ), (0 : ℝ))).take 2).map
          Event.elevRequest ++
         [Event.elevRequest
            ((((0 : ℝ), (0 : ℝ)) :: samplePositions ((0 : ℝ), (0 : ℝ))).getD 2
              ((0 : ℝ), (0 : ℝ))),
          Event.report Outcome.aborted],
       some Outcome.aborted) :=
  sample_failure_aborts_immediately (fun _ => wEnvD) 1 0 0 2 ((0 : ℝ), (0 : ℝ))
    rfl rfl (by omega)
    (fun k hk => by
      interval_cases k
      · exact ⟨4, rfl⟩
      · exact ⟨4, rfl⟩)
    rfl rfl

/-- C10.  If the stop condition (caller cancellation or process shutdown) is
observed while waiting for the `n`-th elevation-sample response of an
iteration (after the first `n` calls returned values), the loop run
terminates at once with outcome `Canceled` — not `Aborted` — reported from
within the sample call: the trace is exactly the `n+1` sample requests
issued so far followed by the single `Canceled` report, so no further sample
or navigation requests are issued. -/
theorem cancel_during_sample_wait_reports_canceled
    (env : ℕ → IterEnv) (tf f i n : ℕ) (p : Pos)
    (htop : Check.stop (env i).top = false)
    (hp : (env i).pose = some p)
    (hn : n < 9)
    (hvals : ∀ k, k < n → ∃ e,
      (SampleElevation ((p :: samplePositions p).getD k p)
        ((env i).sample k) tf).2 = SampleRes.value e)
    (hwait : sampleWait ((env i).sample n) tf 0 = some false) :
    loopRun env tf (f + 1) i =
      (((p :: samplePositions p).take n).map Event.elevRequest ++
         [Event.elevRequest ((p :: samplePositions p).getD n p),
          Event.report Outcome.canceled],
       some Outcome.canceled) := by
  have hstop := SampleElevation_wait_canceled
    ((p :: samplePositions p).getD n p) ((env i).sample n) tf hwait
  match n, hn with
  | 0, _ =>
    have hget : (p :: samplePositions p).getD 0 p = p := rfl
    rw [hget] at hstop
    have hit : iteration (env i) tf =
        ([Event.elevRequest p, Event.report Outcome.canceled],
         IterRes.stopped Outcome.canceled) := by
      simp only [iteration, hp, hstop]
    rw [loopRun, hit]
    simp [htop, hget]
  | m + 1, hn =>
    obtain ⟨c0, hc0⟩ := hvals 0 (Nat.succ_pos m)
    have hget0 : (p :: samplePositions p).getD 0 p = p := rfl
    rw [hget0] at hc0
    have h0f := SampleElevation_eq_value hc0
    have hm8 : m < (samplePositions p).length := by
      rw [samplePositions_length]
      omega
    have hringstop := sampleRing_stops (samplePositions p)
      (fun j => (env i).sample (j + 1)) tf 0 m Outcome.canceled p hm8
      (fun k hk => by
        rcases hvals (k + 1) (by omega) with ⟨e, he⟩
        exact ⟨e, by simpa using he⟩)
      (by simpa using congrArg Prod.snd hstop)
    have hit : iteration (env i) tf =
        ([Event.elevRequest p] ++
           (((samplePositions p).take m).map Event.elevRequest ++
             [Event.elevRequest ((samplePositions p).getD m p),
              Event.report Outcome.canceled]),
         IterRes.stopped Outcome.canceled) := by
      simp only [iteration, hp, h0f, hringstop]
    rw [loopRun, hit]
    simp [htop, List.take_succ_cons]

/-- C10 witness: the concrete environment `wEnvE`, whose third sample call
observes cancellation while waiting for its response. -/
theorem cancel_during_sample_wait_reports_canceled_witness :
    loopRun (fun _ => wEnvE) 1 1 0 =
      (((((0 : ℝ), (0 : ℝ)) :: samplePositions ((0 : ℝ), (0 : ℝ))).take 2).map
          Event.elevRequest ++
         [Event.elevRequest
            ((((0 : ℝ), (0 : ℝ)) :: samplePositions ((0 : ℝ), (0 : ℝ))).getD 2
              ((0 : ℝ), (0 : ℝ))),
          Event.report Outcome.canceled],
       some Outcome.canceled) :=
  cancel_during_sample_wait_reports_canceled (fun _ => wEnvE) 1 0 0 2
    ((0 : ℝ), (0 : ℝ)) rfl rfl (by omega)
    (fun k hk => by
      interval_cases k
      · exact ⟨4, rfl⟩
      · exact ⟨4, rfl⟩)
    rfl

/-! ### Claim C4: the elevation wait has no per-call timeout -/

/-- C4 (divergence demonstration).  The source's elevation wait loop
(`while (result_future.wait_for(100ms) != ready) { if stop ... }`) imposes no
overall per-call timeout: in the environment `silentSample`, whose response
never becomes ready and where the stop condition never fires, the wait loop
never returns — for every fuel bound the wait is still pending and the
`SampleElevation` call is still blocked.  Each individual `wait_for` tick is
bounded (100ms), but the call as a whole can block indefinitely, contrary to
the claim. -/
theorem elevation_wait_unbounded :
    (∀ f t, sampleWait silentSample f t = none) ∧
    (∀ f, (SampleElevation ((0 : ℝ), (0 : ℝ)) silentSample f).2 =
      SampleRes.hang) := by
  have hw : ∀ f t, sampleWait silentSample f t = none := by
    intro f
    induction f with
    | zero => intro t; rfl
    | succ f ih =>
      intro t
      rw [sampleWait]
      simp only [silentSample, Check.stop, Bool.not_true, Bool.false_or,
        Bool.false_eq_true, if_false]
      exact ih (t + 1)
  refine ⟨hw, ?_⟩
  intro f
  simp [SampleElevation, hw f 0]

end PeakFinder
